import Mathlib

/-!
Verification development for the `IAPythonPrincipiantes` teaching repository.

The development shallowly embeds the pieces of the repository that carry
observable logic:

* the windowed chatbot of `Clase 20/06 - custom.py` (`Chatbot.__init__`,
  `Chatbot.talk`, and the interactive loop),
* the vector-store management code of `Clase 24/database_manager.py`
  (`clear_all_documents`, `get_stats`, `get_retriever`) over an abstract
  record collection,
* the document pipeline of `Clase 24/document_processor.py`
  (`load_multiple_files`, `split_documents`),
* the orchestrator error path of `Clase 24/rag_chain.py` (`RAGChain.query`).

Remote calls (the OpenAI / Gemini completion APIs, the ChromaDB backend and
the embedding model) are modelled by explicit outcome parameters: a `talk`
call receives the completion outcome as an `Except` value, the vector store
is a list of records, and so on.  Python's `list[-k:]` slice and `str.lower`
are embedded with their exact semantics (including the `k = 0` corner case
where `list[-0:]` is the whole list).
-/

/-- A chat message, mirroring the Python dict `{"role": ..., "content": ...}`. -/
structure Message where
  role : String
  content : String
deriving DecidableEq, Repr

/-- The system message built by `Chatbot.__init__`:
`{"role": "system", "content": system_prompt}`. -/
def systemMessage (systemPrompt : String) : Message :=
  ⟨"system", systemPrompt⟩

/-- A user message as appended by `Chatbot.talk`. -/
def userMessage (text : String) : Message :=
  ⟨"user", text⟩

/-- An assistant message as appended by `Chatbot.talk` on success. -/
def assistantMessage (text : String) : Message :=
  ⟨"assistant", text⟩

/-- Python's `xs[-k:]` slice for a nonnegative `k`.  For `k = 0` Python
evaluates `xs[-0:] = xs[0:]`, which is the whole list; for `k > 0` it is the
last `min k (length xs)` elements. -/
def pyLastSlice (k : Nat) (xs : List α) : List α :=
  if k = 0 then xs else xs.drop (xs.length - k)

/-- The last `n` elements of a list (the mathematical sliding-window tail,
used to state what the window policy keeps). -/
def lastN (n : Nat) (xs : List α) : List α :=
  xs.drop (xs.length - n)

/-- The sliding-window step of `Chatbot.talk`: after appending, if
`len(self.messages) > self.max_history_tokens + 1` the list is replaced by
`[self.system_message] + self.messages[-self.max_history_tokens:]`. -/
def trimWindow (sys : Message) (maxTok : Nat) (msgs : List Message) : List Message :=
  if msgs.length > maxTok + 1 then sys :: pyLastSlice maxTok msgs else msgs

/-- An error raised by a remote completion call, carrying `str(e)`. -/
structure ApiError where
  msg : String
deriving DecidableEq, Repr

/-- The apology string returned by `Chatbot.talk` when the remote call fails. -/
def chatApology : String :=
  "Lo siento, tuve un problema para procesar tu solicitud."

/-- Shallow embedding of `Chatbot.talk` from `Clase 20/06 - custom.py`.
The method appends the user message, applies the sliding window, and then
performs the remote call whose outcome is the `outcome` parameter: on
success the assistant reply is appended and returned; on any exception the
last message is popped (`self.messages.pop()`) and the fixed apology string
is returned.  The result is the new `self.messages` paired with the return
value. -/
def talk (sys : Message) (maxTok : Nat) (msgs : List Message) (u : String)
    (outcome : Except ApiError String) : List Message × String :=
  let m2 := trimWindow sys maxTok (msgs ++ [userMessage u])
  match outcome with
  | .ok reply => (m2 ++ [assistantMessage reply], reply)
  | .error _ => (m2.dropLast, chatApology)

/-- One observable event of a chat session: a `talk` call whose remote
completion either succeeded with a reply or raised. -/
inductive ChatEvent where
  | success (userText reply : String)
  | failure (userText : String)
deriving DecidableEq, Repr

/-- The state transition of one `talk` call on the message list. -/
def chatStep (sys : Message) (maxTok : Nat) (msgs : List Message) :
    ChatEvent → List Message
  | .success u r => (talk sys maxTok msgs u (.ok r)).1
  | .failure u => (talk sys maxTok msgs u (.error ⟨""⟩)).1

/-- The message list of a `Chatbot(system_prompt, max_history)` after a
sequence of `talk` calls.  `Chatbot.__init__` sets
`self.messages = [self.system_message]` and
`self.max_history_tokens = max_history * 2`. -/
def runChat (systemPrompt : String) (maxHistory : Nat) (events : List ChatEvent) :
    List Message :=
  events.foldl (chatStep (systemMessage systemPrompt) (maxHistory * 2))
    [systemMessage systemPrompt]

/-- An all-success run built from a list of (user text, reply) pairs. -/
def successRun (pairs : List (String × String)) : List ChatEvent :=
  pairs.map fun p => ChatEvent.success p.1 p.2

/-- The full untrimmed transcript of an all-success run: the user and
assistant messages in chronological order, system message excluded. -/
def transcript (pairs : List (String × String)) : List Message :=
  pairs.flatMap fun p => [userMessage p.1, assistantMessage p.2]

-- Basic facts about `lastN`.

theorem lastN_nil (n : Nat) : lastN n ([] : List α) = [] := by
  simp [lastN]

theorem lastN_of_length_le {xs : List α} {n : Nat} (h : xs.length ≤ n) :
    lastN n xs = xs := by
  simp [lastN, Nat.sub_eq_zero_of_le h]

theorem lastN_length (n : Nat) (xs : List α) :
    (lastN n xs).length = min n xs.length := by
  simp [lastN]
  omega

theorem lastN_append_singleton (n : Nat) (xs : List α) (a : α) :
    lastN (n + 1) (xs ++ [a]) = lastN n xs ++ [a] := by
  unfold lastN
  rw [List.drop_append_eq_append_drop]
  have h1 : (xs ++ [a]).length - (n + 1) = xs.length - n := by
    simp
  rw [h1]
  have h2 : xs.length - n - xs.length = 0 := by
    omega
  rw [h2]
  rfl

theorem lastN_lastN_of_le {n m : Nat} (h : n ≤ m) (xs : List α) :
    lastN n (lastN m xs) = lastN n xs := by
  unfold lastN
  rw [List.drop_drop, List.length_drop]
  congr 1
  omega

theorem lastN_cons_of_le {n : Nat} {xs : List α} (h : n ≤ xs.length) (a : α) :
    lastN n (a :: xs) = lastN n xs := by
  unfold lastN
  have : (a :: xs).length - n = (xs.length - n) + 1 := by
    simp; omega
  rw [this]
  simp

theorem pyLastSlice_of_ne_zero {k : Nat} (h : k ≠ 0) (xs : List α) :
    pyLastSlice k xs = lastN k xs := by
  simp [pyLastSlice, lastN, h]

-- Structure of one `talk` step.

theorem trimWindow_cons_ne_nil (sys : Message) (maxTok : Nat) (z : List Message)
    (hz : z ≠ []) :
    ∃ w, trimWindow sys maxTok (sys :: z) = sys :: w ∧ w ≠ [] := by
  unfold trimWindow
  by_cases h : (sys :: z).length > maxTok + 1
  · rw [if_pos h]
    refine ⟨pyLastSlice maxTok (sys :: z), rfl, ?_⟩
    unfold pyLastSlice
    by_cases hk : maxTok = 0
    · rw [if_pos hk]
      exact List.cons_ne_nil _ _
    · rw [if_neg hk]
      intro hnil
      have hlen := congrArg List.length hnil
      rw [List.length_drop] at hlen
      simp at hlen
      omega
  · rw [if_neg h]
    exact ⟨z, rfl, hz⟩

theorem chatStep_head (sys : Message) (maxTok : Nat) (t : List Message) (e : ChatEvent) :
    ∃ t2, chatStep sys maxTok (sys :: t) e = sys :: t2 := by
  have hz : t ++ [userMessage (match e with
      | ChatEvent.success u _ => u
      | ChatEvent.failure u => u)] ≠ [] := by
    intro h
    exact absurd (congrArg List.length h) (by simp)
  cases e with
  | success u r =>
    obtain ⟨w, hw, hwne⟩ := trimWindow_cons_ne_nil sys maxTok (t ++ [userMessage u])
      (by exact hz)
    refine ⟨w ++ [assistantMessage r], ?_⟩
    simp only [chatStep, talk]
    rw [show sys :: t ++ [userMessage u] = sys :: (t ++ [userMessage u]) from rfl, hw]
    rfl
  | failure u =>
    obtain ⟨w, hw, hwne⟩ := trimWindow_cons_ne_nil sys maxTok (t ++ [userMessage u])
      (by exact hz)
    refine ⟨w.dropLast, ?_⟩
    simp only [chatStep, talk]
    rw [show sys :: t ++ [userMessage u] = sys :: (t ++ [userMessage u]) from rfl, hw]
    rw [List.dropLast_cons_of_ne_nil hwne]

theorem foldl_chatStep_head (sys : Message) (maxTok : Nat) (events : List ChatEvent) :
    ∀ t : List Message, ∃ t2,
      events.foldl (chatStep sys maxTok) (sys :: t) = sys :: t2 := by
  induction events with
  | nil => exact fun t => ⟨t, rfl⟩
  | cons e es ih =>
    intro t
    obtain ⟨t1, ht1⟩ := chatStep_head sys maxTok t e
    obtain ⟨t2, ht2⟩ := ih t1
    refine ⟨t2, ?_⟩
    rw [List.foldl_cons, ht1, ht2]

theorem talk_success_window (sys : Message) (k : Nat) (T : List Message) (u r : String) :
    (talk sys (k + 1) (sys :: lastN (k + 2) T) u (.ok r)).1
      = sys :: lastN (k + 2) (T ++ [userMessage u, assistantMessage r]) := by
  have hcons : (sys :: lastN (k + 2) T) ++ [userMessage u]
      = sys :: (lastN (k + 2) T ++ [userMessage u]) := by
    simp
  by_cases hT : T.length ≤ k
  case pos =>
    have hL : lastN (k + 2) T = T := lastN_of_length_le (by omega)
    have hR : lastN (k + 2) (T ++ [userMessage u, assistantMessage r])
        = T ++ [userMessage u, assistantMessage r] := by
      apply lastN_of_length_le
      simp
      omega
    simp only [talk, trimWindow, hcons, hL, hR]
    rw [if_neg (by simp; omega)]
    simp
  case neg =>
    have hLlen : k + 1 ≤ (lastN (k + 2) T).length := by
      rw [lastN_length]
      omega
    simp only [talk, trimWindow, hcons]
    rw [if_pos (by simp; omega)]
    rw [pyLastSlice_of_ne_zero (by omega)]
    rw [lastN_cons_of_le (by simp; omega)]
    have e1 : lastN (k + 1) (lastN (k + 2) T ++ [userMessage u])
        = lastN k (lastN (k + 2) T) ++ [userMessage u] := lastN_append_singleton _ _ _
    have e2 : lastN k (lastN (k + 2) T) = lastN k T := lastN_lastN_of_le (by omega) _
    have e3 : T ++ [userMessage u, assistantMessage r]
        = (T ++ [userMessage u]) ++ [assistantMessage r] := by
      simp
    have e4 : lastN (k + 2) ((T ++ [userMessage u]) ++ [assistantMessage r])
        = lastN (k + 1) (T ++ [userMessage u]) ++ [assistantMessage r] :=
      lastN_append_singleton _ _ _
    have e5 : lastN (k + 1) (T ++ [userMessage u])
        = lastN k T ++ [userMessage u] := lastN_append_singleton _ _ _
    rw [e1, e2, e3, e4, e5]
    simp

theorem foldl_success_window (sys : Message) (k : Nat) (pairs : List (String × String)) :
    ∀ T : List Message,
      (successRun pairs).foldl (chatStep sys (k + 1)) (sys :: lastN (k + 2) T)
        = sys :: lastN (k + 2) (T ++ transcript pairs) := by
  induction pairs with
  | nil =>
    intro T
    simp [successRun, transcript]
  | cons p ps ih =>
    intro T
    have hstep : chatStep sys (k + 1) (sys :: lastN (k + 2) T)
        (ChatEvent.success p.1 p.2)
        = sys :: lastN (k + 2) (T ++ [userMessage p.1, assistantMessage p.2]) :=
      talk_success_window sys k T p.1 p.2
    have htr : T ++ transcript (p :: ps)
        = (T ++ [userMessage p.1, assistantMessage p.2]) ++ transcript ps := by
      simp [transcript]
    rw [htr]
    have hrun : successRun (p :: ps)
        = ChatEvent.success p.1 p.2 :: successRun ps := rfl
    rw [hrun, List.foldl_cons, hstep]
    exact ih (T ++ [userMessage p.1, assistantMessage p.2])

theorem transcript_length (pairs : List (String × String)) :
    (transcript pairs).length = 2 * pairs.length := by
  induction pairs with
  | nil => rfl
  | cons p ps ih =>
    have h : transcript (p :: ps)
        = userMessage p.1 :: assistantMessage p.2 :: transcript ps := rfl
    rw [h]
    simp [ih]
    omega

/-- Claim C1, counterexample.  The claim states that a failing `talk` leaves
the message list exactly as it was before the call.  Concretely, for
`Chatbot(system_prompt="S", max_history=1)`, after two successful talks the
list has 4 messages; a third, failing, talk first trims the window (losing
the oldest messages) and then pops only the user message, leaving 2
messages — not the 4 the claim requires. -/
theorem talk_failure_not_full_rollback :
    runChat "S" 1 [ChatEvent.success "u1" "r1", ChatEvent.success "u2" "r2",
        ChatEvent.failure "u3"]
      ≠ runChat "S" 1 [ChatEvent.success "u1" "r1", ChatEvent.success "u2" "r2"]
    ∧ (runChat "S" 1 [ChatEvent.success "u1" "r1", ChatEvent.success "u2" "r2",
        ChatEvent.failure "u3"]).length = 2
    ∧ (runChat "S" 1 [ChatEvent.success "u1" "r1",
        ChatEvent.success "u2" "r2"]).length = 4 := by
  decide

/-- Claim C1, amended.  If the remote completion call inside `talk(m)` raises
and the sliding-window trim does not fire during the call — that is, the
message count before the call is at most `2 * max_history` — then after
`talk` returns the message list is exactly what it was before the call: the
appended user message is rolled back.  (When the trim fires, the pop removes
the user message but the messages discarded by the trim are not restored.) -/
theorem talk_failure_rollback (systemPrompt : String) (maxHistory : Nat)
    (msgs : List Message) (u : String) (e : ApiError)
    (h : msgs.length ≤ maxHistory * 2) :
    (talk (systemMessage systemPrompt) (maxHistory * 2) msgs u (.error e)).1
      = msgs := by
  simp only [talk, trimWindow]
  rw [if_neg (by simp; omega)]
  exact List.dropLast_concat

/-- Witness for `talk_failure_rollback` at `max_history = 1` with a one-message
history. -/
theorem talk_failure_rollback_witness :
    [systemMessage "S"].length ≤ 1 * 2
    ∧ (talk (systemMessage "S") (1 * 2) [systemMessage "S"] "hola"
        (.error ⟨"boom"⟩)).1 = [systemMessage "S"] :=
  ⟨by decide,
    talk_failure_rollback "S" 1 [systemMessage "S"] "hola" ⟨"boom"⟩ (by decide)⟩

/-- Claim C2, counterexample.  The claim states that once the pair count
exceeds `max_history` the list is the system message plus exactly
`2 * max_history` trailing messages, i.e. `2 * max_history + 1` messages in
total.  For `max_history = 1` and two successful talks the pair count is 2,
yet the list holds 4 messages, not 3: the window trims to
`1 + 2 * max_history` messages *before* the assistant reply is appended. -/
theorem runChat_window_cex :
    (runChat "S" 1 (successRun [("u1", "r1"), ("u2", "r2")])).length ≠ 2 * 1 + 1 := by
  decide

/-- Claim C2, amended.  For every Chatbot constructed with
`max_history ≥ 1` pairs, after any sequence of successful `talk` calls whose
pair count exceeds `max_history`, the message list consists of the system
message at position 0 followed by exactly `2 * max_history + 1` trailing
messages, namely the most recent `2 * max_history + 1` entries of the full
untrimmed transcript (the trim to `2 * max_history` kept messages happens
before the assistant reply of the current call is appended). -/
theorem runChat_window (systemPrompt : String) (maxHistory : Nat)
    (pairs : List (String × String)) (hM : 1 ≤ maxHistory)
    (hlen : maxHistory + 1 ≤ pairs.length) :
    runChat systemPrompt maxHistory (successRun pairs)
      = systemMessage systemPrompt :: lastN (maxHistory * 2 + 1) (transcript pairs)
    ∧ (lastN (maxHistory * 2 + 1) (transcript pairs)).length
      = maxHistory * 2 + 1 := by
  obtain ⟨k, hk⟩ : ∃ k, maxHistory * 2 = k + 1 := ⟨maxHistory * 2 - 1, by omega⟩
  constructor
  · unfold runChat
    rw [hk]
    have hinit : [systemMessage systemPrompt]
        = systemMessage systemPrompt :: lastN (k + 2) ([] : List Message) := by
      rw [lastN_nil]
    rw [hinit, foldl_success_window]
    rw [List.nil_append]
  · rw [lastN_length, transcript_length]
    omega

/-- Witness for `runChat_window`: `max_history = 1`, two successful talks. -/
theorem runChat_window_witness :
    1 ≤ 1 ∧ 1 + 1 ≤ ([("u1", "r1"), ("u2", "r2")] : List (String × String)).length
    ∧ runChat "S" 1 (successRun [("u1", "r1"), ("u2", "r2")])
      = [systemMessage "S", assistantMessage "r1", userMessage "u2",
          assistantMessage "r2"] := by
  refine ⟨by decide, by decide, ?_⟩
  rw [(runChat_window "S" 1 [("u1", "r1"), ("u2", "r2")] (by decide) (by decide)).1]
  decide

/-- Claim C3.  For every system prompt, every `max_history` (including the
degenerate `max_history = 0`, where Python's `messages[-0:]` slice returns
the whole list) and every sequence of `talk` calls, successful or failing,
the chatbot's message list has the system message at index 0 — in
particular it always contains it, and no operation ever evicts it. -/
theorem runChat_system_pinned (systemPrompt : String) (maxHistory : Nat)
    (events : List ChatEvent) :
    (runChat systemPrompt maxHistory events).head?
      = some (systemMessage systemPrompt)
    ∧ systemMessage systemPrompt ∈ runChat systemPrompt maxHistory events := by
  obtain ⟨t2, ht2⟩ :=
    foldl_chatStep_head (systemMessage systemPrompt) (maxHistory * 2) events []
  unfold runChat
  rw [show [systemMessage systemPrompt]
      = systemMessage systemPrompt :: ([] : List Message) from rfl, ht2]
  exact ⟨rfl, List.mem_cons_self _ _⟩

-- Vector store (`Clase 24/database_manager.py` over an abstract ChromaDB
-- collection).

/-- A record persisted in the vector store: a stable identifier plus the
fragment text.  The embedding vector itself is irrelevant to the claims and
is abstracted into the distance function passed to the search. -/
structure VectorRecord where
  id : Nat
  text : String
deriving DecidableEq, Repr

/-- The state of the ChromaDB collection underlying `self.vectordb`. -/
abbrev Collection := List VectorRecord

/-- Modelled from the spec: ChromaDB's `collection.count()` — the Vector
Store's current record count (the backend is not part of this repository). -/
def collectionCount (c : Collection) : Nat :=
  c.length

/-- Modelled from the spec: ChromaDB's `collection.get()['ids']` — the stable
identifiers of all records currently in the store. -/
def collectionGetIds (c : Collection) : List Nat :=
  c.map fun r => r.id

/-- Modelled from the spec: ChromaDB's `collection.delete(ids=...)` — removes
every record whose identifier is listed. -/
def collectionDelete (ids : List Nat) (c : Collection) : Collection :=
  c.filter fun r => !(ids.contains r.id)

/-- Modelled from the spec: `add(fragments)` "embeds and persists each
fragment ... idempotence is NOT guaranteed (re-adding the same fragment
creates a duplicate record)".  `DatabaseManager.add_documents` forwards to
`self.vectordb.add_documents(documents)` and returns `len(documents)`. -/
def addDocuments (c : Collection) (docs : List VectorRecord) : Collection × Nat :=
  (c ++ docs, docs.length)

/-- The result dictionary of `DatabaseManager.clear_all_documents`. -/
structure ClearResult where
  success : Bool
  deleted_count : Nat
deriving DecidableEq, Repr

/-- Shallow embedding of `DatabaseManager.clear_all_documents`: read the
count; if zero, report success with zero deleted; otherwise fetch all ids,
delete them (guarded by `if all_ids:`), and report the prior count as
deleted.  The human-readable `message` field is omitted. -/
def clear_all_documents (c : Collection) : Collection × ClearResult :=
  let count := collectionCount c
  if count = 0 then
    (c, ⟨true, 0⟩)
  else
    let allIds := collectionGetIds c
    let c2 := if allIds.isEmpty then c else collectionDelete allIds c
    (c2, ⟨true, count⟩)

/-- The result dictionary of `DatabaseManager.get_stats` (the formatted
`message` field is omitted). -/
structure StatsResult where
  count : Nat
  status : String
deriving DecidableEq, Repr

/-- Shallow embedding of `DatabaseManager.get_stats`: reports the collection
count, with status `"empty"` exactly when the count is zero. -/
def get_stats (c : Collection) : StatsResult :=
  let count := collectionCount c
  if count = 0 then ⟨count, "empty"⟩ else ⟨count, "active"⟩

/-- Modelled from the spec: stable insertion of a record into a
distance-sorted list, keeping earlier-inserted records first on ties. -/
def insertByDist (dist : VectorRecord → Nat) (r : VectorRecord) :
    List VectorRecord → List VectorRecord
  | [] => [r]
  | x :: xs => if dist x < dist r then x :: insertByDist dist r xs else r :: x :: xs

/-- Modelled from the spec: stable sort of the store's records by distance. -/
def sortByDist (dist : VectorRecord → Nat) : List VectorRecord → List VectorRecord
  | [] => []
  | x :: xs => insertByDist dist x (sortByDist dist xs)

/-- Modelled from the spec: `query(text, k)` of the Vector Store
(`vectordb.similarity_search` / the retriever of
`DatabaseManager.get_retriever`): "returns the k records with smallest
distance (similarity ranking), ties broken by insertion order; returns fewer
than k if the store holds fewer records; returns empty sequence (not an
error) if the store is empty".  The distance function abstracts the
embedding of the query and of each record. -/
def similarity_search (dist : String → VectorRecord → Nat) (queryText : String)
    (k : Nat) (c : Collection) : List VectorRecord :=
  (sortByDist (dist queryText) c).take k

theorem clear_all_documents_empties (c : Collection) :
    (clear_all_documents c).1 = []
    ∧ (clear_all_documents c).2.success = true
    ∧ (clear_all_documents c).2.deleted_count = c.length := by
  by_cases h : collectionCount c = 0
  · have hc : c = [] := List.eq_nil_of_length_eq_zero h
    subst hc
    exact ⟨rfl, rfl, rfl⟩
  · have hne : c ≠ [] := by
      intro hc
      exact h (by rw [hc]; rfl)
    have hids : (collectionGetIds c).isEmpty = false := by
      unfold collectionGetIds
      cases c with
      | nil => exact absurd rfl hne
      | cons x xs => rfl
    have hdel : collectionDelete (collectionGetIds c) c = [] := by
      unfold collectionDelete
      rw [List.filter_eq_nil_iff]
      intro r hr
      have hmem : r.id ∈ collectionGetIds c := List.mem_map_of_mem _ hr
      simpa using hmem
    simp only [clear_all_documents, collectionCount] at *
    rw [if_neg h, if_neg (by rw [hids]; exact Bool.false_ne_true)]
    exact ⟨hdel, rfl, rfl⟩

/-- Claim C4.  For every store state and every batch of records, `add(F)`
followed by `clear()` leaves a store on which `stats()` reports a count of
zero and a subsequent `query` returns the empty sequence; moreover `clear()`
on an already-empty store succeeds and reports zero deleted. -/
theorem clear_after_add (c : Collection) (docs : List VectorRecord)
    (dist : String → VectorRecord → Nat) (q : String) (k : Nat) :
    (get_stats (clear_all_documents (addDocuments c docs).1).1).count = 0
    ∧ (clear_all_documents (addDocuments c docs).1).2.success = true
    ∧ similarity_search dist q k (clear_all_documents (addDocuments c docs).1).1 = []
    ∧ (clear_all_documents ([] : Collection)).2.success = true
    ∧ (clear_all_documents ([] : Collection)).2.deleted_count = 0 := by
  obtain ⟨h1, h2, _⟩ := clear_all_documents_empties (addDocuments c docs).1
  rw [h1]
  exact ⟨rfl, h2, by simp [similarity_search, sortByDist], rfl, rfl⟩

/-- Claim C5.  For every distance function, query text and `k`, querying an
empty vector store returns the empty sequence of results (the operation is
total: no error value exists in its type). -/
theorem query_empty_store (dist : String → VectorRecord → Nat) (q : String)
    (k : Nat) :
    similarity_search dist q k ([] : Collection) = [] := by
  simp [similarity_search, sortByDist]

-- Splitter (`Clase 24/document_processor.py`).

/-- A raw text document produced by the Loader: its text, as a character
sequence, plus its source metadata. -/
structure Doc where
  text : List Char
  source : String
deriving DecidableEq, Repr

/-- A fragment produced by the Splitter, carrying its owning document's
metadata. -/
structure Fragment where
  text : List Char
  source : String
deriving DecidableEq, Repr

/-- Modelled from the spec: the splitting algorithm itself is langchain's
`RecursiveCharacterTextSplitter`, which is not part of this repository —
`DocumentProcessor.__init__` only configures `chunk_size` and
`chunk_overlap`.  Per the spec the Splitter "cuts each raw document into
overlapping fixed-size text fragments", "consecutive fragments overlap by
the configured amount to preserve cross-boundary context", and "a Document
shorter than the target length yields exactly one Fragment with no
overlap".  This is the character-level sliding window: while the remaining
text is longer than `chunkSize`, emit the first `chunkSize` characters and
advance by `chunkSize - chunkOverlap`; the final fragment is whatever
remains.  The `max _ 1` only guards termination outside the spec's
`overlap < length` precondition; under that precondition the step is
exactly `chunkSize - chunkOverlap`. -/
def splitChars (chunkSize chunkOverlap : Nat) (s : List Char) : List (List Char) :=
  if _h : s.length ≤ chunkSize then [s]
  else
    s.take chunkSize ::
      splitChars chunkSize chunkOverlap (s.drop (max (chunkSize - chunkOverlap) 1))
termination_by s.length
decreasing_by
  simp only [List.length_drop]
  omega

/-- Shallow embedding of `DocumentProcessor.split_documents`: the splitter
applied to every document, each fragment keeping its document's metadata. -/
def split_documents (chunkSize chunkOverlap : Nat) (docs : List Doc) :
    List Fragment :=
  docs.flatMap fun d =>
    (splitChars chunkSize chunkOverlap d.text).map fun t => Fragment.mk t d.source

theorem splitChars_head (L O : Nat) (s : List Char) :
    (splitChars L O s).head? = some (s.take L) := by
  rw [splitChars]
  by_cases h : s.length ≤ L
  · rw [dif_pos h, List.take_of_length_le h]
    rfl
  · rw [dif_neg h]
    rfl

/-- Claim C6.  For every chunk-size/overlap configuration and every Document
whose text is shorter than the configured fragment length, the Splitter
produces exactly one Fragment, whose text equals the Document's text and
which carries the Document's metadata. -/
theorem split_short_document (chunkSize chunkOverlap : Nat) (d : Doc)
    (h : d.text.length < chunkSize) :
    split_documents chunkSize chunkOverlap [d] = [Fragment.mk d.text d.source] := by
  have hs : splitChars chunkSize chunkOverlap d.text = [d.text] := by
    rw [splitChars, dif_pos (Nat.le_of_lt h)]
  simp [split_documents, hs]

/-- Witness for `split_short_document`: a five-character document with the
default-style configuration 20/5. -/
theorem split_short_document_witness :
    (Doc.mk "cielo".data "nota.txt").text.length < 20
    ∧ split_documents 20 5 [Doc.mk "cielo".data "nota.txt"]
      = [Fragment.mk "cielo".data "nota.txt"] :=
  ⟨by decide, split_short_document 20 5 (Doc.mk "cielo".data "nota.txt") (by decide)⟩

/-- The overlap contract between two consecutive fragments: the last
`chunkOverlap` characters of the first equal the first `chunkOverlap`
characters of the second, and that shared run has length exactly
`chunkOverlap`. -/
def overlapRel (chunkOverlap : Nat) (a b : List Char) : Prop :=
  lastN chunkOverlap a = b.take chunkOverlap
  ∧ (b.take chunkOverlap).length = chunkOverlap

theorem splitChars_chain (L O : Nat) (hO : O < L) :
    ∀ (n : Nat) (s : List Char), s.length ≤ n →
      List.Chain' (overlapRel O) (splitChars L O s) := by
  intro n
  induction n with
  | zero =>
    intro s hs
    rw [splitChars, dif_pos (by omega)]
    exact List.chain'_singleton _
  | succ n ih =>
    intro s hs
    rw [splitChars]
    by_cases h : s.length ≤ L
    · rw [dif_pos h]
      exact List.chain'_singleton _
    · rw [dif_neg h]
      have hstep : max (L - O) 1 = L - O := by omega
      rw [hstep]
      rw [List.chain'_cons']
      constructor
      · intro b hb
        rw [splitChars_head] at hb
        have hb2 : b = (s.drop (L - O)).take L := by
          have := hb
          simp at this
          exact this.symm
        subst hb2
        unfold overlapRel
        have hminOL : min O L = O := by omega
        constructor
        · rw [List.take_take, hminOL]
          unfold lastN
          rw [List.length_take]
          have hlen : min L s.length = L := by omega
          rw [hlen, List.drop_take]
          have hLO : L - (L - O) = O := by omega
          rw [hLO]
        · rw [List.take_take, hminOL, List.length_take, List.length_drop]
          omega
      · apply ih
        rw [List.length_drop]
        omega

/-- Claim C7.  For every fragment-length/overlap configuration with
`overlap < length` and every Document, any two consecutive Fragments the
Splitter produces from that Document share a run of exactly `overlap`
characters: the last `overlap` characters of each fragment equal the first
`overlap` characters of the next.  (Fragments of different Documents are
never adjacent in this per-document statement, so Document boundaries are
respected by construction.) -/
theorem split_documents_overlap (chunkSize chunkOverlap : Nat)
    (hO : chunkOverlap < chunkSize) (d : Doc) :
    List.Chain' (fun f g => overlapRel chunkOverlap f.text g.text)
      (split_documents chunkSize chunkOverlap [d]) := by
  have h := splitChars_chain chunkSize chunkOverlap hO d.text.length d.text le_rfl
  simp only [split_documents, List.flatMap_cons, List.flatMap_nil, List.append_nil]
  rw [List.chain'_map]
  exact h

/-- Witness for `split_documents_overlap`: configuration 5/2 on a 9-character
text, which yields the fragments "abcde", "defgh", "ghi" with exact
two-character overlaps. -/
theorem split_documents_overlap_witness :
    2 < 5
    ∧ List.Chain' (fun f g => overlapRel 2 f.text g.text)
        (split_documents 5 2 [Doc.mk "abcdefghi".data "t.txt"]) :=
  ⟨by decide, split_documents_overlap 5 2 (by decide) (Doc.mk "abcdefghi".data "t.txt")⟩

-- RAG orchestrator error path (`Clase 24/rag_chain.py`).

/-- The failure string built by `RAGChain.query`'s exception handler:
`f"Lo siento, ocurrió un error al procesar tu pregunta: {str(e)}"`. -/
def ragApology (e : ApiError) : String :=
  "Lo siento, ocurrió un error al procesar tu pregunta: " ++ e.msg

/-- Shallow embedding of `RAGChain.query`: the whole body (`create_chain`,
retrieval and the LLM invocation) runs inside one `try` whose outcome is
the `outcome` parameter; on success the generated text is returned, on any
exception the failure string embedding `str(e)` is returned instead of
re-raising. -/
def ragQueryResult (outcome : Except ApiError String) : String :=
  match outcome with
  | .ok response => response
  | .error e => ragApology e

/-- Claim C8.  For every exception raised by the retrieval or completion
backend during a RAG query or a chat talk, the operation does not propagate
the exception (both embeddings are total functions of the backend outcome):
`RAGChain.query` returns the structured failure string embedding `str(e)`,
and `Chatbot.talk` returns the fixed apology string. -/
theorem backend_error_returns_string (e : ApiError) (sys : Message)
    (maxTok : Nat) (msgs : List Message) (u : String) :
    ragQueryResult (.error e) = ragApology e
    ∧ (talk sys maxTok msgs u (.error e)).2 = chatApology :=
  ⟨rfl, rfl⟩

-- Loader aggregation (`DocumentProcessor.load_multiple_files`).

/-- An exception raised by `DocumentProcessor.load_file` (a `ValueError` for
an unsupported extension, or any loader failure), carrying its message. -/
structure LoadError where
  msg : String
deriving DecidableEq, Repr

/-- One iteration of the `load_multiple_files` loop: a successful
`load_file` extends the accumulated document list, a raising one appends
the path to `failed_files` and the loop continues. -/
def loadStep (load : String → Except LoadError (List Doc))
    (acc : List Doc × List String) (p : String) : List Doc × List String :=
  match load p with
  | .ok docs => (acc.1 ++ docs, acc.2)
  | .error _ => (acc.1, acc.2 ++ [p])

/-- Shallow embedding of `DocumentProcessor.load_multiple_files`: iterate
over the paths in order starting from empty accumulators; the per-file
loader behaviour is the `load` parameter. -/
def load_multiple_files (load : String → Except LoadError (List Doc))
    (filePaths : List String) : List Doc × List String :=
  filePaths.foldl (loadStep load) ([], [])

/-- The documents a single path contributes: those it loads, or none. -/
def loadedDocs (load : String → Except LoadError (List Doc)) (p : String) :
    List Doc :=
  match load p with
  | .ok docs => docs
  | .error _ => []

/-- Whether loading a path raises. -/
def loadFails (load : String → Except LoadError (List Doc)) (p : String) : Bool :=
  match load p with
  | .ok _ => false
  | .error _ => true

theorem load_multiple_files_go (load : String → Except LoadError (List Doc))
    (filePaths : List String) :
    ∀ (d : List Doc) (f : List String),
      filePaths.foldl (loadStep load) (d, f)
      = (d ++ filePaths.flatMap (loadedDocs load),
          f ++ filePaths.filter (loadFails load)) := by
  induction filePaths with
  | nil =>
    intro d f
    simp
  | cons p ps ih =>
    intro d f
    rw [List.foldl_cons]
    cases hp : load p with
    | ok docs =>
      have hstep : loadStep load (d, f) p = (d ++ docs, f) := by
        unfold loadStep
        rw [hp]
      rw [hstep, ih]
      have h1 : (p :: ps).flatMap (loadedDocs load)
          = docs ++ ps.flatMap (loadedDocs load) := by
        rw [List.flatMap_cons]
        unfold loadedDocs
        rw [hp]
      have h2 : (p :: ps).filter (loadFails load) = ps.filter (loadFails load) := by
        rw [List.filter_cons]
        have hfail : loadFails load p = false := by
          unfold loadFails
          rw [hp]
        simp [hfail]
      rw [h1, h2, List.append_assoc]
    | error err =>
      have hstep : loadStep load (d, f) p = (d, f ++ [p]) := by
        unfold loadStep
        rw [hp]
      rw [hstep, ih]
      have h1 : (p :: ps).flatMap (loadedDocs load)
          = ps.flatMap (loadedDocs load) := by
        rw [List.flatMap_cons]
        unfold loadedDocs
        rw [hp]
        rfl
      have h2 : (p :: ps).filter (loadFails load)
          = p :: ps.filter (loadFails load) := by
        rw [List.filter_cons]
        have hfail : loadFails load p = true := by
          unfold loadFails
          rw [hp]
        simp [hfail]
      rw [h1, h2, List.append_assoc]
      rfl

/-- Claim C9.  For every loader behaviour and every list of file paths,
`load_multiple_files` never propagates a per-file failure (it is a total
function of the loader's outcomes): the returned document list is exactly
the concatenation, in input order, of the documents of the paths that
loaded successfully, and the returned failed-files list is exactly the
paths, in input order, whose load raised. -/
theorem load_multiple_files_spec (load : String → Except LoadError (List Doc))
    (filePaths : List String) :
    (load_multiple_files load filePaths).1
      = filePaths.flatMap (loadedDocs load)
    ∧ (load_multiple_files load filePaths).2
      = filePaths.filter (loadFails load) := by
  unfold load_multiple_files
  rw [load_multiple_files_go]
  constructor
  · simp
  · simp

-- Interactive loop (`__main__` of `Clase 20/02 - chatbot.py` and
-- `Clase 20/06 - custom.py`).

/-- Python's `str.lower()` on the ASCII fragment relevant to the loop
guard: every basic-latin letter is lowercased, other characters are kept. -/
def pyLower (s : String) : String :=
  ⟨s.data.map Char.toLower⟩

/-- The loop guard of both read-eval-print loops:
`if entrada.lower() == "salir": break`. -/
def replStops (entrada : String) : Bool :=
  pyLower entrada == "salir"

/-- One run of the `while True` read-eval-print loop over a stream of input
lines: `true` iff the loop reaches `break`, i.e. some line lowercases to
`"salir"`. -/
def replTerminates (lines : List String) : Bool :=
  lines.any replStops

/-- The input lines actually forwarded to `talk` before the loop exits. -/
def replProcessed (lines : List String) : List String :=
  lines.takeWhile fun l => !(replStops l)

/-- Two strings are case variants when they agree character by character up
to basic-latin letter case. -/
abbrev caseVariant (s t : String) : Prop :=
  s.data.map Char.toLower = t.data.map Char.toLower

/-- Claim C10.  The read-eval-print loop terminates on any case variant of
the input line `"salir"` (e.g. `"SALIR"`, `"Salir"`): the guard lowercases
the input before comparing it with the literal `"salir"`, so on such a line
the guard fires and the loop breaks wherever the line occurs in the input
stream. -/
theorem repl_exits_on_salir (s : String) (hs : caseVariant s "salir")
    (preceding rest : List String) :
    replStops s = true
    ∧ replTerminates (preceding ++ s :: rest) = true := by
  have hlower : pyLower s = "salir" := by
    unfold pyLower
    have hdata : s.data.map Char.toLower = "salir".data := by
      rw [hs]
      decide
    rw [hdata]
  have hstop : replStops s = true := by
    unfold replStops
    rw [hlower]
    decide
  refine ⟨hstop, ?_⟩
  unfold replTerminates
  rw [List.any_append]
  rw [List.any_cons]
  rw [hstop]
  simp

/-- Witness for `repl_exits_on_salir`: the all-caps variant `"SALIR"` after
one ordinary line. -/
theorem repl_exits_on_salir_witness :
    caseVariant "SALIR" "salir"
    ∧ replStops "SALIR" = true
    ∧ replTerminates ["hola", "SALIR"] = true :=
  ⟨by decide,
    (repl_exits_on_salir "SALIR" (by decide) ["hola"] []).1,
    (repl_exits_on_salir "SALIR" (by decide) ["hola"] []).2⟩
